import Mathlib

/-!
Verification development for the prompt-refinement pipeline of the
`codex-mcp` repository.  The TypeScript sources (`src/templates.ts`,
`src/codex.ts`, together with the richer duplicated variant of the
template engine) are shallowly embedded as executable Lean functions:
pure functions become Lean functions, the subprocess invocation becomes
an explicit outcome datatype (and, for the timer behaviour, an event
trace semantics), and fallible parsing returns `Option`.
-/

set_option maxRecDepth 10000

/-! ## JavaScript-style string primitives -/

/-- `String.prototype.toLowerCase` restricted to the Basic Latin and
Latin-1 uppercase letters (the only uppercase characters that occur in
the keyword tables and in the inputs considered here). -/
def jsCharToLower (c : Char) : Char :=
  if 'A' ≤ c ∧ c ≤ 'Z' then Char.ofNat (c.toNat + 32)
  else if 'À' ≤ c ∧ c ≤ 'Þ' ∧ c ≠ '×' then Char.ofNat (c.toNat + 32)
  else c

/-- `s.toLowerCase()`. -/
def jsToLower (s : String) : String :=
  String.mk (s.data.map jsCharToLower)

/-- Whether `pat` is a prefix of `s` (character lists). -/
def listHasPrefixOf : List Char → List Char → Bool
  | _, [] => true
  | [], _ :: _ => false
  | a :: as, b :: bs => a == b && listHasPrefixOf as bs

/-- Whether `pat` occurs contiguously inside `s` (character lists). -/
def listContains : List Char → List Char → Bool
  | [], pat => pat.isEmpty
  | a :: rest, pat => listHasPrefixOf (a :: rest) pat || listContains rest pat

/-- `s.includes(pat)` — contiguous substring test, true on the empty
pattern, exactly as in JavaScript. -/
def strIncludes (s pat : String) : Bool :=
  listContains s.data pat.data

/-- Replace the first occurrence of the character `c` by `r`
(the semantics of `s.replace('c', 'r')` with a one-character string
pattern). -/
def replaceFirstCharAux : List Char → Char → Char → List Char
  | [], _, _ => []
  | x :: xs, c, r => if x == c then r :: xs else x :: replaceFirstCharAux xs c r

/-- `s.replace(c, r)` for one-character patterns. -/
def strReplaceFirstChar (s : String) (c r : Char) : String :=
  String.mk (replaceFirstCharAux s.data c r)

/-- JavaScript whitespace as far as `String.prototype.trim` is
concerned, restricted to the ASCII range. -/
def isJsWs (c : Char) : Bool :=
  c == ' ' || c == '\t' || c == '\n' || c == '\r' || c == '\x0b' || c == '\x0c'

/-- `s.trim()`. -/
def jsTrim (s : String) : String :=
  String.mk (((s.data.dropWhile isJsWs).reverse.dropWhile isJsWs).reverse)

/-- Split on a single separator character, the semantics of
`s.split(sep)` with a one-character separator string. -/
def splitCharAux (sep : Char) : List Char → List Char → List String
  | cur, [] => [String.mk cur.reverse]
  | cur, c :: cs =>
    if c == sep then String.mk cur.reverse :: splitCharAux sep [] cs
    else splitCharAux sep (c :: cur) cs

/-- `s.split(sep)` for a one-character separator. -/
def jsSplitChar (s : String) (sep : Char) : List String :=
  splitCharAux sep [] s.data

/-- Deduplication keeping the first occurrence of each element, the
semantics of `[...new Set(xs)]` in JavaScript. -/
def dedupFirstAux : List String → List String → List String
  | _, [] => []
  | seen, x :: xs =>
    if x ∈ seen then dedupFirstAux seen xs
    else x :: dedupFirstAux (x :: seen) xs

/-- `[...new Set(xs)]`. -/
def dedupFirst (xs : List String) : List String :=
  dedupFirstAux [] xs

/-! ## Data model (`src/templates.ts` interfaces) -/

/-- `PromptMetadata` from `src/templates.ts`. -/
structure PromptMetadata where
  sections : List String
  acceptanceCriteria : List String
  checklist : List String
deriving DecidableEq, Repr

/-- `RefinedPromptOutput` from `src/templates.ts`. -/
structure RefinedPromptOutput where
  improvedPrompt : String
  rationale : String
  risks : List String
  tags : List String
  metadata : PromptMetadata
deriving DecidableEq, Repr

/-- One entry of the `templates` table of `PromptRules`. -/
structure TemplateDef where
  prompt_prefix : String
  sections : List String
deriving DecidableEq, Repr

/-- `PromptRules` from `src/templates.ts`; the `templates` object is
modelled as an association list with unique keys. -/
structure PromptRules where
  main_refiner : String
  templates : List (String × TemplateDef)
  risk_categories : List String
  common_tags : List String
deriving DecidableEq, Repr

/-- `TemplateManager.getDefaultRules` from `src/templates.ts` — the
built-in rule document used when no rules file can be loaded. -/
def defaultRules : PromptRules :=
  { main_refiner := "You are an expert prompt engineer. Analyze and improve the given prompt with structured output in JSON format.",
    templates := [("software_development",
      { prompt_prefix := "Como um desenvolvedor sênior experiente, ",
        sections := ["Análise de Requisitos", "Arquitetura Proposta", "Implementação", "Testes", "Documentação"] })],
    risk_categories := ["Segurança", "Performance", "Escalabilidade"],
    common_tags := ["desenvolvimento", "automação", "dados"] }

/-! ## Heuristic template engine (`src/templates.ts`, simple variant,
the one imported by `src/codex.ts`) -/

/-- `TemplateManager.detectTemplate` from `src/templates.ts`. -/
def detectTemplate (prompt : String) : String :=
  let lowerPrompt := jsToLower prompt
  if strIncludes lowerPrompt "script" || strIncludes lowerPrompt "código" ||
     strIncludes lowerPrompt "desenvolv" || strIncludes lowerPrompt "program" then
    "software_development"
  else if strIncludes lowerPrompt "dados" || strIncludes lowerPrompt "csv" ||
     strIncludes lowerPrompt "database" || strIncludes lowerPrompt "postgres" then
    "data_processing"
  else
    "software_development"

/-- `TemplateManager.getTemplateMetadata` from `src/templates.ts`.
(In the source, `template.sections || default` fires only when
`sections` is absent; an empty array is truthy in JavaScript and is
kept, so in this typed model the field is returned as stored.) -/
def getTemplateMetadata (rules : PromptRules) (templateName : String) : PromptMetadata :=
  match rules.templates.lookup templateName with
  | none =>
    { sections := ["Plan", "Risks", "Next actions", "Tests"],
      acceptanceCriteria := ["Funcionalidade implementada corretamente", "Testes passando", "Documentação atualizada"],
      checklist := ["Revisar código", "Executar testes", "Validar requisitos"] }
  | some t =>
    { sections := t.sections,
      acceptanceCriteria := ["Solução atende aos requisitos especificados", "Código segue padrões de qualidade", "Testes validam funcionalidade"],
      checklist := ["Implementar solução proposta", "Criar testes unitários", "Validar com dados de teste", "Documentar implementação"] }

/-- The tag list accumulated by `TemplateManager.suggestTags`
(`src/templates.ts`) before the final `[...new Set(...)]`
deduplication: matching `common_tags` in table order, then the three
keyword rules in source order. -/
def suggestTagsRaw (rules : PromptRules) (prompt : String) : List String :=
  let lowerPrompt := jsToLower prompt
  (rules.common_tags.filter (fun tag =>
      strIncludes lowerPrompt (jsToLower tag) ||
      strIncludes lowerPrompt (strReplaceFirstChar (jsToLower tag) 'ã' 'a')))
  ++ (if strIncludes lowerPrompt "api" || strIncludes lowerPrompt "rest" ||
        strIncludes lowerPrompt "endpoint" then ["api"] else [])
  ++ (if strIncludes lowerPrompt "test" || strIncludes lowerPrompt "unit" ||
        strIncludes lowerPrompt "integration" then ["testes"] else [])
  ++ (if strIncludes lowerPrompt "performance" || strIncludes lowerPrompt "otimiz" ||
        strIncludes lowerPrompt "speed" then ["performance"] else [])

/-- `TemplateManager.suggestTags` from `src/templates.ts`. -/
def suggestTags (rules : PromptRules) (prompt : String) : List String :=
  dedupFirst (suggestTagsRaw rules prompt)

/-- `TemplateManager.identifyRisks` from `src/templates.ts` (the simple
variant: four risk categories, no non-empty guard). -/
def identifyRisks (prompt : String) : List String :=
  let lowerPrompt := jsToLower prompt
  (if strIncludes lowerPrompt "password" || strIncludes lowerPrompt "secret" ||
     strIncludes lowerPrompt "token" || strIncludes lowerPrompt "auth" then
     ["Dados sensíveis podem estar expostos"] else [])
  ++ (if strIncludes lowerPrompt "loop" || strIncludes lowerPrompt "recursão" ||
        strIncludes lowerPrompt "grande volume" then
        ["Possível impacto na performance com grandes volumes"] else [])
  ++ (if strIncludes lowerPrompt "database" || strIncludes lowerPrompt "sql" ||
        strIncludes lowerPrompt "dados" then
        ["Validação de dados de entrada necessária"] else [])
  ++ (if strIncludes lowerPrompt "api" || strIncludes lowerPrompt "external" ||
        strIncludes lowerPrompt "terceiro" then
        ["Dependência de serviços externos pode falhar"] else [])

/-! ## Richer duplicated variant of the engine (six risk categories,
final non-empty guard) -/

/-- Security trigger of the richer `identifyRisks` (applied to the
lowercased prompt). -/
def richSecurityTrig (lp : String) : Bool :=
  strIncludes lp "password" || strIncludes lp "secret" || strIncludes lp "token" ||
  strIncludes lp "auth" || strIncludes lp "login" || strIncludes lp "senha"

/-- Performance trigger of the richer `identifyRisks`. -/
def richPerformanceTrig (lp : String) : Bool :=
  strIncludes lp "loop" || strIncludes lp "recursão" || strIncludes lp "grande volume" ||
  strIncludes lp "many" || strIncludes lp "milhões" || strIncludes lp "lote"

/-- Data trigger of the richer `identifyRisks`. -/
def richDataTrig (lp : String) : Bool :=
  strIncludes lp "database" || strIncludes lp "sql" || strIncludes lp "dados" ||
  strIncludes lp "csv" || strIncludes lp "postgres" || strIncludes lp "validação"

/-- External-dependency trigger of the richer `identifyRisks`. -/
def richExternalTrig (lp : String) : Bool :=
  strIncludes lp "api" || strIncludes lp "external" || strIncludes lp "terceiro" ||
  strIncludes lp "http" || strIncludes lp "rest" || strIncludes lp "endpoint"

/-- Filesystem trigger of the richer `identifyRisks`. -/
def richFileTrig (lp : String) : Bool :=
  strIncludes lp "arquivo" || strIncludes lp "file" ||
  strIncludes lp "salvar" || strIncludes lp "gravar"

/-- Backup/recovery trigger of the richer `identifyRisks`. -/
def richBackupTrig (lp : String) : Bool :=
  strIncludes lp "backup" || strIncludes lp "recovery" ||
  strIncludes lp "restore" || strIncludes lp "recuper"

/-- The `risks` accumulator of the richer `identifyRisks` before its
final guard: each triggered category contributes its advisory, in
source order. -/
def richRisksList (prompt : String) : List String :=
  let lowerPrompt := jsToLower prompt
  (if richSecurityTrig lowerPrompt then ["Dados sensíveis podem estar expostos"] else [])
  ++ (if richPerformanceTrig lowerPrompt then ["Possível impacto na performance com grandes volumes"] else [])
  ++ (if richDataTrig lowerPrompt then ["Validação de dados de entrada necessária"] else [])
  ++ (if richExternalTrig lowerPrompt then ["Dependência de serviços externos pode falhar"] else [])
  ++ (if richFileTrig lowerPrompt then ["Verificar permissões de acesso a arquivos"] else [])
  ++ (if richBackupTrig lowerPrompt then ["Implementar estratégia de recuperação em caso de falha"] else [])

/-- `TemplateManager.identifyRisks` of the richer duplicated variant of
`templates.ts`: six risk categories and the final
`risks.length > 0 ? risks : [generic advisory]` guard. -/
def identifyRisksRich (prompt : String) : List String :=
  let risks := richRisksList prompt
  if risks.length > 0 then risks else ["Verificar implementação cuidadosamente"]

/-- No risk category of the richer `identifyRisks` triggers on the
prompt. -/
def noRichRiskTrigger (prompt : String) : Bool :=
  let lp := jsToLower prompt
  !richSecurityTrig lp && !richPerformanceTrig lp && !richDataTrig lp &&
  !richExternalTrig lp && !richFileTrig lp && !richBackupTrig lp

/-! ## JSON values and `JSON.parse`
(`src/codex.ts` calls the JavaScript built-in `JSON.parse` on the
extracted block; it is embedded here as a recursive-descent parser.
Modelling limits, irrelevant to the inputs considered: `\b`, `\f` and
`\u` string escapes and fractional/exponent number forms make the
parser fail instead of succeeding.) -/

/-- JSON values; objects keep their fields in source order. -/
inductive Json where
  | null
  | bool (b : Bool)
  | num (n : Int)
  | str (s : String)
  | arr (elems : List Json)
  | obj (fields : List (String × Json))

/-- Skip JSON whitespace (space, tab, newline, carriage return). -/
def skipWs : List Char → List Char
  | [] => []
  | c :: cs =>
    if c == ' ' || c == '\n' || c == '\t' || c == '\r' then skipWs cs
    else c :: cs

/-- Parse the body of a JSON string after the opening quote. -/
def parseStrAux : Nat → List Char → List Char → Option (String × List Char)
  | 0, _, _ => none
  | _ + 1, _, [] => none
  | fuel + 1, acc, c :: rest =>
    if c == '"' then some (String.mk acc.reverse, rest)
    else if c == '\\' then
      match rest with
      | [] => none
      | e :: rest' =>
        if e == '"' then parseStrAux fuel ('"' :: acc) rest'
        else if e == '\\' then parseStrAux fuel ('\\' :: acc) rest'
        else if e == '/' then parseStrAux fuel ('/' :: acc) rest'
        else if e == 'n' then parseStrAux fuel ('\n' :: acc) rest'
        else if e == 't' then parseStrAux fuel ('\t' :: acc) rest'
        else if e == 'r' then parseStrAux fuel ('\r' :: acc) rest'
        else none
    else parseStrAux fuel (c :: acc) rest

/-- Parse a run of decimal digits. -/
def parseDigitsAux : List Char → Nat → Nat × List Char
  | [], acc => (acc, [])
  | c :: cs, acc =>
    if c.isDigit then parseDigitsAux cs (acc * 10 + (c.toNat - '0'.toNat))
    else (acc, c :: cs)

/-- Whether the remainder starts a fractional or exponent part (which
this model does not support). -/
def startsNumberCont : List Char → Bool
  | [] => false
  | c :: _ => c == '.' || c == 'e' || c == 'E'

/-- Parse a JSON integer literal. -/
def parseNumber : List Char → Option (Json × List Char)
  | '-' :: c :: rest =>
    if c.isDigit then
      let p := parseDigitsAux (c :: rest) 0
      if startsNumberCont p.2 then none else some (.num (-(p.1 : Int)), p.2)
    else none
  | c :: rest =>
    if c.isDigit then
      let p := parseDigitsAux (c :: rest) 0
      if startsNumberCont p.2 then none else some (.num (p.1 : Int), p.2)
    else none
  | [] => none

/-- The pending work of the recursive-descent parser: a whole value,
the remaining elements of an array, or the remaining fields of an
object (one datatype so that the parser is a single structural
recursion on its fuel and evaluates inside the kernel). -/
inductive ParseTask where
  | value
  | elems (acc : List Json)
  | fields (acc : List (String × Json))

/-- Fuel-bounded recursive-descent JSON parser. -/
def parseJsonAux (fuel : Nat) (task : ParseTask) (cs : List Char) : Option (Json × List Char) :=
  match fuel with
  | 0 => none
  | fuel + 1 =>
    match task with
    | .value =>
      match skipWs cs with
      | 'n' :: 'u' :: 'l' :: 'l' :: rest => some (.null, rest)
      | 't' :: 'r' :: 'u' :: 'e' :: rest => some (.bool true, rest)
      | 'f' :: 'a' :: 'l' :: 's' :: 'e' :: rest => some (.bool false, rest)
      | '"' :: rest =>
        match parseStrAux (rest.length + 1) [] rest with
        | some (s, rest') => some (.str s, rest')
        | none => none
      | '[' :: rest =>
        match skipWs rest with
        | ']' :: rest' => some (.arr [], rest')
        | cs' => parseJsonAux fuel (.elems []) cs'
      | '{' :: rest =>
        match skipWs rest with
        | '}' :: rest' => some (.obj [], rest')
        | cs' => parseJsonAux fuel (.fields []) cs'
      | cs' => parseNumber cs'
    | .elems acc =>
      match parseJsonAux fuel .value cs with
      | none => none
      | some (v, rest) =>
        match skipWs rest with
        | ',' :: rest' => parseJsonAux fuel (.elems (v :: acc)) rest'
        | ']' :: rest' => some (.arr (v :: acc).reverse, rest')
        | _ => none
    | .fields acc =>
      match skipWs cs with
      | '"' :: rest =>
        match parseStrAux (rest.length + 1) [] rest with
        | none => none
        | some (k, rest') =>
          match skipWs rest' with
          | ':' :: rest2 =>
            match parseJsonAux fuel .value rest2 with
            | none => none
            | some (v, rest3) =>
              match skipWs rest3 with
              | ',' :: rest4 => parseJsonAux fuel (.fields ((k, v) :: acc)) rest4
              | '}' :: rest4 => some (.obj ((k, v) :: acc).reverse, rest4)
              | _ => none
          | _ => none
      | _ => none

/-- `JSON.parse(s)` — parse the whole string, allowing trailing
whitespace only. -/
def jsonParse (s : String) : Option Json :=
  match parseJsonAux (2 * s.length + 4) .value s.data with
  | some (j, rest) => if (skipWs rest).isEmpty then some j else none
  | none => none

/-! ## Schema validation (`CodexOutputSchema`, `src/codex.ts`) -/

/-- Property lookup on a parsed JSON object.  `JSON.parse` lets a later
duplicate key overwrite an earlier one, so the last occurrence wins. -/
def jlookup : List (String × Json) → String → Option Json
  | [], _ => none
  | (k, v) :: rest, key =>
    match jlookup rest key with
    | some v' => some v'
    | none => if k == key then some v else none

/-- `z.string()` — accepts exactly JSON strings. -/
def asStr : Json → Option String
  | .str s => some s
  | _ => none

/-- Collect a list of JSON values that are all strings. -/
def allStrs : List Json → Option (List String)
  | [] => some []
  | x :: xs =>
    match asStr x, allStrs xs with
    | some s, some rest => some (s :: rest)
    | _, _ => none

/-- `z.array(z.string())` — accepts exactly arrays of strings. -/
def asStrList : Json → Option (List String)
  | .arr xs => allStrs xs
  | _ => none

/-- `CodexOutputSchema.parse` from `src/codex.ts`: a `z.object` in its
default mode — every required field must be present with the right
element type, and unknown keys are stripped (the result carries only
the five declared fields). -/
def codexOutputValidate (j : Json) : Option RefinedPromptOutput :=
  match j with
  | .obj fields =>
    match (jlookup fields "improvedPrompt").bind asStr,
          (jlookup fields "rationale").bind asStr,
          (jlookup fields "risks").bind asStrList,
          (jlookup fields "tags").bind asStrList,
          jlookup fields "metadata" with
    | some ip, some ra, some ri, some ta, some (.obj mf) =>
      match (jlookup mf "sections").bind asStrList,
            (jlookup mf "acceptanceCriteria").bind asStrList,
            (jlookup mf "checklist").bind asStrList with
      | some secs, some ac, some cl =>
        some { improvedPrompt := ip, rationale := ra, risks := ri, tags := ta,
               metadata := { sections := secs, acceptanceCriteria := ac, checklist := cl } }
      | _, _, _ => none
    | _, _, _, _, _ => none
  | _ => none

/-- The five top-level keys declared by `CodexOutputSchema`; any other
key of the incoming object is unknown to the schema. -/
def requiredTopKey (k : String) : Bool :=
  k == "improvedPrompt" || k == "rationale" || k == "risks" || k == "tags" || k == "metadata"

/-! ## Output reconciliation (`src/codex.ts`) -/

/-- The greedy regular expression match of `/\x7b[\s\S]*\x7d/` used by
`tryParseJSONOutput`: the substring from the first opening brace to the
last closing brace, provided the latter comes after the former. -/
def extractJsonBlock (s : String) : Option String :=
  let cs := s.data
  match cs.findIdx? (fun c => c == '{'), cs.reverse.findIdx? (fun c => c == '}') with
  | some i, some jr =>
    let j := cs.length - 1 - jr
    if i < j then some (String.mk ((cs.drop i).take (j - i + 1))) else none
  | _, _ => none

/-- `tryParseJSONOutput` from `src/codex.ts`: extract a brace-delimited
block, `JSON.parse` it, validate against `CodexOutputSchema`; any
failure yields `none` (the caller then falls back). -/
def tryParseJSONOutput (output : String) : Option RefinedPromptOutput :=
  match extractJsonBlock output with
  | none => none
  | some js =>
    match jsonParse js with
    | none => none
    | some j => codexOutputValidate j

/-- The `improvedPrompt` chosen by `createFallbackOutput`: the first
non-blank line of the Codex output longer than 80% of the original
prompt's length (`line.length > originalPrompt.length * 0.8`, rendered
exactly over the integers as `4 * |prompt| < 5 * |line|`), else the
first non-blank line, else the original prompt. -/
def fallbackImprovedPrompt (originalPrompt codexOutput : String) : String :=
  let lines := (jsSplitChar codexOutput '\n').filter (fun l => jsTrim l != "")
  if lines.length > 0 then
    match lines.find? (fun l => 4 * originalPrompt.length < 5 * l.length) with
    | some l => l
    | none =>
      match lines.head? with
      | some l0 => l0
      | none => originalPrompt
  else originalPrompt

/-- `createFallbackOutput` from `src/codex.ts` (the reconciler's
fallback path when no valid JSON was recovered). -/
def createFallbackOutput (rules : PromptRules) (originalPrompt codexOutput : String)
    (_context : Option String) (tags : Option (List String)) : RefinedPromptOutput :=
  let template := detectTemplate originalPrompt
  let suggestedTags := suggestTags rules originalPrompt
  let identifiedRisks := identifyRisks originalPrompt
  { improvedPrompt := fallbackImprovedPrompt originalPrompt codexOutput,
    rationale := "Prompt refinado utilizando template padrão devido a limitações na saída do Codex CLI.",
    risks := if identifiedRisks.length > 0 then identifiedRisks
             else ["Verificar implementação cuidadosamente"],
    tags := (suggestedTags ++ tags.getD []).take 8,
    metadata := getTemplateMetadata rules template }

/-- `createErrorFallbackOutput` from `src/codex.ts` (the orchestrator's
error fallback when the subprocess invocation failed; `errMsg` is the
`message` of the caught error). -/
def createErrorFallbackOutput (rules : PromptRules) (originalPrompt errMsg : String)
    (_context : Option String) (tags : Option (List String)) : RefinedPromptOutput :=
  let template := detectTemplate originalPrompt
  let suggestedTags := suggestTags rules originalPrompt
  let identifiedRisks := identifyRisks originalPrompt
  { improvedPrompt := originalPrompt ++ "\n\n[NOTA: Prompt processado em modo offline devido a erro no Codex CLI]",
    rationale := "Não foi possível conectar com o Codex CLI (" ++ errMsg ++ "). Utilizando análise local baseada em templates.",
    risks := "Codex CLI indisponível - usando análise offline" :: identifiedRisks,
    tags := ("fallback" :: "offline" :: (suggestedTags ++ tags.getD [])).take 8,
    metadata := getTemplateMetadata rules template }

/-- `enrichOutput` from `src/codex.ts`: every required field that is
empty (for the strings: empty after trimming, which also covers the
JavaScript falsiness test on the empty string) is replaced by its
default. -/
def enrichOutput (rules : PromptRules) (result : RefinedPromptOutput)
    (originalPrompt : String) : RefinedPromptOutput :=
  { improvedPrompt := if jsTrim result.improvedPrompt == "" then originalPrompt
                      else result.improvedPrompt,
    rationale := if jsTrim result.rationale == "" then "Prompt processado com refinamento automático."
                 else result.rationale,
    risks := if result.risks.isEmpty then ["Validar implementação cuidadosamente"]
             else result.risks,
    tags := if result.tags.isEmpty then suggestTags rules originalPrompt
            else result.tags,
    metadata :=
      { sections := if result.metadata.sections.isEmpty then ["Plan", "Risks", "Next actions", "Tests"]
                    else result.metadata.sections,
        acceptanceCriteria := if result.metadata.acceptanceCriteria.isEmpty then
                      ["Solução implementada corretamente", "Testes executados com sucesso", "Documentação atualizada"]
                    else result.metadata.acceptanceCriteria,
        checklist := if result.metadata.checklist.isEmpty then
                      ["Revisar requisitos", "Implementar solução", "Executar testes", "Validar resultado"]
                    else result.metadata.checklist } }

/-! ## Refinement orchestrator (`runCodexCLI`, `src/codex.ts`) -/

/-- `CodexRequest` from `src/codex.ts`. -/
structure CodexRequest where
  prompt : String
  context : Option String
  tags : Option (List String)
  model : String
deriving DecidableEq, Repr

/-- The outcome of one subprocess invocation, as settled by
`executeCodexCommand`: accumulated stdout on exit 0, or one of the
three failure modes. -/
inductive SubprocessOutcome where
  | success (stdout : String)
  | nonZeroExit (code : Option Int) (stderr : String)
  | spawnFailure (msg : String)
  | timedOut
deriving DecidableEq, Repr

/-- JavaScript template interpolation of a nullable exit code. -/
def showNullableInt : Option Int → String
  | none => "null"
  | some n => toString n

/-- The `CodexCLIError` message produced by `executeCodexCommand` for
each failure mode (`src/codex.ts`). -/
def errorMessage : SubprocessOutcome → String
  | .success _ => ""
  | .nonZeroExit code stderr =>
    "Codex CLI failed with exit code " ++ showNullableInt code ++ ": " ++ stderr
  | .spawnFailure msg => "Failed to spawn Codex CLI: " ++ msg
  | .timedOut => "Codex CLI operation timed out"

/-- Whether the outcome is one of the three failure modes. -/
def SubprocessOutcome.isFailure : SubprocessOutcome → Bool
  | .success _ => false
  | _ => true

/-- `runCodexCLI` from `src/codex.ts`, as a function of the subprocess
outcome.  On success the raw stdout is trimmed (done by
`executeCodexCommand` before resolving), reconciled and enriched; on
any failure the error-fallback result is returned directly (the `catch`
branch does not pass through `enrichOutput`). -/
def runCodexCLI (rules : PromptRules) (request : CodexRequest)
    (outcome : SubprocessOutcome) : RefinedPromptOutput :=
  match outcome with
  | .success stdout =>
    let codexOutput := jsTrim stdout
    let result :=
      match tryParseJSONOutput codexOutput with
      | some r => r
      | none => createFallbackOutput rules request.prompt codexOutput request.context request.tags
    enrichOutput rules result request.prompt
  | e => createErrorFallbackOutput rules request.prompt (errorMessage e) request.context request.tags

/-! ## Event-trace semantics of `executeCodexCommand` (`src/codex.ts`)

The promise executor registers handlers for stdout/stderr `data`
events, two `close` handlers (the first settles the promise, the second
always calls `clearTimeout`), an `error` handler, and one 30-second
timer whose callback kills the process with SIGTERM and rejects with
the timeout error.  A trace is the sequence of these events in the
order the event loop delivers them; the state below folds the handlers
over a trace. -/

/-- One event delivered to the handlers of `executeCodexCommand`. -/
inductive ProcEvent where
  | dataOut (s : String)
  | dataErr (s : String)
  | close (code : Option Int)
  | errored (msg : String)
  | timerFire
deriving DecidableEq, Repr

/-- Handler state: accumulated output, the settled value of the promise
(`none` while pending; a promise settles at most once), whether
`clearTimeout` has run, and whether `kill('SIGTERM')` was issued. -/
structure InvokerState where
  stdout : String
  stderr : String
  settled : Option (Except String String)
  timerCancelled : Bool
  killSent : Bool

/-- The initial handler state. -/
def initState : InvokerState :=
  { stdout := "", stderr := "", settled := none, timerCancelled := false, killSent := false }

/-- Settle the promise; a no-op when it is already settled. -/
def settle (st : InvokerState) (r : Except String String) : InvokerState :=
  match st.settled with
  | some _ => st
  | none => { st with settled := some r }

/-- Run the registered handlers for one event. -/
def stepEvent (st : InvokerState) (e : ProcEvent) : InvokerState :=
  match e with
  | .dataOut s => { st with stdout := st.stdout ++ s }
  | .dataErr s => { st with stderr := st.stderr ++ s }
  | .close code =>
    let st1 :=
      if code == some 0 then settle st (.ok (jsTrim st.stdout))
      else settle st (.error ("Codex CLI failed with exit code " ++ showNullableInt code ++ ": " ++ st.stderr))
    { st1 with timerCancelled := true }
  | .errored msg => settle st (.error ("Failed to spawn Codex CLI: " ++ msg))
  | .timerFire =>
    if st.timerCancelled then st
    else settle { st with killSent := true } (.error "Codex CLI operation timed out")

/-- Fold the handlers over a whole trace. -/
def runEvents (evs : List ProcEvent) : InvokerState :=
  evs.foldl stepEvent initState

/-- Whether the event is a `close` event. -/
def ProcEvent.isClose : ProcEvent → Bool
  | .close _ => true
  | _ => false

/-- Whether the event is a spawn-`error` event. -/
def ProcEvent.isSpawnErr : ProcEvent → Bool
  | .errored _ => true
  | _ => false

/-- Invariant maintained while no close/error event has been delivered:
the timer is still armed, and the promise is pending unless an earlier
timer firing already settled it with the timeout error (having sent the
kill signal). -/
def pendingInv (st : InvokerState) : Prop :=
  st.timerCancelled = false ∧
  (st.settled = none ∨
    (st.settled = some (Except.error "Codex CLI operation timed out") ∧ st.killSent = true))


/-! ## Generic lemmas about the string and list primitives -/

/-- String concatenation appends the underlying character lists. -/
theorem string_data_append (a b : String) : (a ++ b).data = a.data ++ b.data := by
  cases a; cases b; rfl

/-- A list is a prefix of itself followed by anything. -/
theorem listHasPrefixOf_append (p r : List Char) : listHasPrefixOf (p ++ r) p = true := by
  induction p with
  | nil => cases r <;> simp [listHasPrefixOf]
  | cons a as ih => simp [listHasPrefixOf, ih]

/-- A list occurs inside any surrounding concatenation. -/
theorem listContains_append_mid (x y z : List Char) : listContains (x ++ (y ++ z)) y = true := by
  induction x with
  | nil =>
    cases y with
    | nil => cases z <;> simp [listContains, listHasPrefixOf]
    | cons b bs =>
      have h := listHasPrefixOf_append (b :: bs) z
      simp only [List.nil_append, List.cons_append] at h ⊢
      simp [listContains, h]
  | cons a as ih =>
    simp only [List.cons_append]
    simp [listContains, ih]

/-- `a ++ b ++ c` includes `b` as a substring. -/
theorem strIncludes_append_mid (a b c : String) : strIncludes (a ++ b ++ c) b = true := by
  show listContains (a ++ b ++ c).data b.data = true
  rw [string_data_append, string_data_append, List.append_assoc]
  exact listContains_append_mid _ _ _

/-- First-occurrence deduplication yields a sublist of the input, so
the surviving elements keep their relative (first-seen) order. -/
theorem dedupFirstAux_sublist (seen xs : List String) : (dedupFirstAux seen xs).Sublist xs := by
  induction xs generalizing seen with
  | nil => simp [dedupFirstAux]
  | cons x xs ih =>
    simp only [dedupFirstAux]
    split
    · exact (ih seen).cons x
    · exact (ih (x :: seen)).cons₂ x

/-- Elements produced by first-occurrence deduplication avoid the
`seen` accumulator. -/
theorem mem_dedupFirstAux_not_seen (y : String) (seen xs : List String)
    (hy : y ∈ dedupFirstAux seen xs) : y ∉ seen := by
  induction xs generalizing seen with
  | nil => simp [dedupFirstAux] at hy
  | cons x xs ih =>
    simp only [dedupFirstAux] at hy
    split at hy
    · exact ih seen hy
    · next hx =>
      rcases List.mem_cons.mp hy with h | h
      · subst h; exact hx
      · intro hseen
        exact ih (x :: seen) h (List.mem_cons_of_mem x hseen)

/-- First-occurrence deduplication produces a duplicate-free list. -/
theorem dedupFirstAux_nodup (seen xs : List String) : (dedupFirstAux seen xs).Nodup := by
  induction xs generalizing seen with
  | nil => simp [dedupFirstAux]
  | cons x xs ih =>
    simp only [dedupFirstAux]
    split
    · exact ih seen
    · refine List.nodup_cons.mpr ⟨?_, ih (x :: seen)⟩
      intro hx
      exact mem_dedupFirstAux_not_seen x (x :: seen) xs hx (List.mem_cons_self x seen)

/-- The three degraded-mode markers of `createErrorFallbackOutput`: the
rationale embeds the error message, the risks start with the fixed
offline advisory, and the tags start with `fallback`, `offline`. -/
theorem errorFallbackProps (rules : PromptRules) (p msg : String) (ctx : Option String)
    (tags : Option (List String)) :
    strIncludes (createErrorFallbackOutput rules p msg ctx tags).rationale msg = true ∧
    (createErrorFallbackOutput rules p msg ctx tags).risks.head? =
      some "Codex CLI indisponível - usando análise offline" ∧
    (createErrorFallbackOutput rules p msg ctx tags).tags.take 2 = ["fallback", "offline"] := by
  refine ⟨?_, rfl, rfl⟩
  exact strIncludes_append_mid "Não foi possível conectar com o Codex CLI ("
    msg "). Utilizando análise local baseada em templates."

/-! ## The claims -/

/-- C1: the completeness invariant fails on the code.  For the
non-empty prompt `"hello"` and a subprocess run that exits 0 with a
schema-valid JSON object whose `tags` array is empty, `enrichOutput`
replaces the empty tags with `suggestTags("hello")`, which is itself
empty, so the orchestrator returns a result with an empty `tags`
sequence — contradicting the claim that every field is non-empty. -/
theorem c1_empty_tags_escape_enrichment :
    ("hello" : String) ≠ "" ∧
    (runCodexCLI defaultRules { prompt := "hello", context := none, tags := none, model := "gpt-5" }
      (.success "\x7b\"improvedPrompt\":\"x\",\"rationale\":\"y\",\"risks\":[\"r1\"],\"tags\":[],\"metadata\":\x7b\"sections\":[\"s1\"],\"acceptanceCriteria\":[\"a1\"],\"checklist\":[\"c1\"]\x7d\x7d")).tags = [] := by
  decide

/-- C2: whenever the subprocess invocation fails (spawn failure,
non-zero exit, or timeout), `runCodexCLI` returns the error-fallback
result rather than propagating the error: its rationale contains the
failure message, its risks begin with the fixed offline advisory, and
its tags begin with the fixed `fallback`/`offline` markers. -/
theorem c2_subprocess_failure_absorbed (rules : PromptRules) (req : CodexRequest)
    (e : SubprocessOutcome) (h : e.isFailure = true) :
    strIncludes (runCodexCLI rules req e).rationale (errorMessage e) = true ∧
    (runCodexCLI rules req e).risks.head? =
      some "Codex CLI indisponível - usando análise offline" ∧
    (runCodexCLI rules req e).tags.take 2 = ["fallback", "offline"] := by
  cases e with
  | success s => simp [SubprocessOutcome.isFailure] at h
  | nonZeroExit code stderr => exact errorFallbackProps rules req.prompt _ req.context req.tags
  | spawnFailure m => exact errorFallbackProps rules req.prompt _ req.context req.tags
  | timedOut => exact errorFallbackProps rules req.prompt _ req.context req.tags

/-- C2 witness: the error-fallback markers at a concrete timed-out
invocation. -/
theorem c2_witness :
    strIncludes (runCodexCLI defaultRules ⟨"x", none, none, "gpt-5"⟩ .timedOut).rationale
      (errorMessage .timedOut) = true ∧
    (runCodexCLI defaultRules ⟨"x", none, none, "gpt-5"⟩ .timedOut).risks.head? =
      some "Codex CLI indisponível - usando análise offline" ∧
    (runCodexCLI defaultRules ⟨"x", none, none, "gpt-5"⟩ .timedOut).tags.take 2 =
      ["fallback", "offline"] :=
  c2_subprocess_failure_absorbed defaultRules ⟨"x", none, none, "gpt-5"⟩ .timedOut rfl

/-- C3 counterexample: with prompt `"abcdefghij"` (length 10) and raw
output `"hi"`, the only non-blank line has length 2 — below 80% of the
prompt length — so the claim dictates the unmodified original prompt;
the code instead returns `"hi"` (the `|| lines[0]` branch). -/
theorem c3_counterexample :
    (createFallbackOutput defaultRules "abcdefghij" "hi" none none).improvedPrompt = "hi" ∧
    (jsSplitChar "hi" '\n').filter (fun l => jsTrim l != "") = ["hi"] ∧
    ("hi" : String).length ≤ 7 ∧ 8 ≤ ("abcdefghij" : String).length ∧
    ("hi" : String) ≠ "abcdefghij" := by
  decide

/-- C3 as amended: in the reconciler's fallback path, `improvedPrompt`
is the first non-blank line of the raw output strictly longer than 80%
of the original prompt's length if one exists, else the first non-blank
line if one exists, else the original prompt unmodified. -/
theorem c3_amended_fallback_improved_prompt (rules : PromptRules) (p out : String)
    (ctx : Option String) (tags : Option (List String)) :
    (createFallbackOutput rules p out ctx tags).improvedPrompt =
      match ((jsSplitChar out '\n').filter (fun l => jsTrim l != "")).find?
          (fun l => 4 * p.length < 5 * l.length) with
      | some l => l
      | none => ((jsSplitChar out '\n').filter (fun l => jsTrim l != "")).headD p := by
  show fallbackImprovedPrompt p out = _
  unfold fallbackImprovedPrompt
  cases h : (jsSplitChar out '\n').filter (fun l => jsTrim l != "") with
  | nil => simp
  | cons l ls =>
    simp only [List.length_cons]
    cases hf : (l :: ls).find? (fun l => 4 * p.length < 5 * l.length) with
    | none => simp [hf]
    | some l' => simp [hf]

/-- C4 counterexample: the simple `identifyRisks` of `src/templates.ts`
(the variant imported by `src/codex.ts`) returns the empty sequence on
the empty string, so the claim is false of that function. -/
theorem c4_counterexample : identifyRisks "" = [] := by
  decide

/-- C4 as amended: the richer duplicated `identifyRisks` (six risk
categories) never returns an empty sequence, and returns exactly the
single generic advisory when no risk category triggers. -/
theorem c4_amended_rich_risks_nonempty (p : String) :
    identifyRisksRich p ≠ [] ∧
    (noRichRiskTrigger p = true →
      identifyRisksRich p = ["Verificar implementação cuidadosamente"]) := by
  constructor
  · show (if (richRisksList p).length > 0 then richRisksList p
      else ["Verificar implementação cuidadosamente"]) ≠ []
    split
    · next h => intro hc; simp [hc] at h
    · simp
  · intro h
    simp only [noRichRiskTrigger, Bool.and_eq_true, Bool.not_eq_true'] at h
    obtain ⟨⟨⟨⟨⟨h1, h2⟩, h3⟩, h4⟩, h5⟩, h6⟩ := h
    have hL : richRisksList p = [] := by
      simp [richRisksList, h1, h2, h3, h4, h5, h6]
    simp [identifyRisksRich, hL]

/-- C4 witness: the richer `identifyRisks` on the empty string, where
no category triggers, returns exactly the generic advisory. -/
theorem c4_witness : identifyRisksRich "" = ["Verificar implementação cuidadosamente"] :=
  (c4_amended_rich_risks_nonempty "").2 (by decide)

theorem settle_settled_some (st : InvokerState) (x r : Except String String)
    (h : st.settled = some r) : (settle st x).settled = some r := by
  simp [settle, h]

theorem settle_settled_none (st : InvokerState) (x : Except String String)
    (h : st.settled = none) : (settle st x).settled = some x := by
  simp [settle, h]

theorem settle_killSent (st : InvokerState) (x : Except String String) :
    (settle st x).killSent = st.killSent := by
  unfold settle
  split <;> rfl

theorem settle_timerCancelled (st : InvokerState) (x : Except String String) :
    (settle st x).timerCancelled = st.timerCancelled := by
  unfold settle
  split <;> rfl

theorem withKill_settled (st : InvokerState) :
    ({ st with killSent := true } : InvokerState).settled = st.settled := rfl

theorem withKill_timerCancelled (st : InvokerState) :
    ({ st with killSent := true } : InvokerState).timerCancelled = st.timerCancelled := rfl

theorem withKill_killSent (st : InvokerState) :
    ({ st with killSent := true } : InvokerState).killSent = true := rfl

theorem stepEvent_timerFire_armed (st : InvokerState) (htc : st.timerCancelled = false) :
    stepEvent st ProcEvent.timerFire =
      settle { st with killSent := true } (.error "Codex CLI operation timed out") := by
  simp [stepEvent, htc]

theorem stepEvent_settled_some (st : InvokerState) (e : ProcEvent) (r : Except String String)
    (h : st.settled = some r) : (stepEvent st e).settled = some r := by
  cases e with
  | dataOut s => simpa [stepEvent] using h
  | dataErr s => simpa [stepEvent] using h
  | close code =>
    simp only [stepEvent]
    split <;> exact settle_settled_some _ _ _ h
  | errored m => exact settle_settled_some _ _ _ h
  | timerFire =>
    simp only [stepEvent]
    split
    · exact h
    · exact settle_settled_some _ _ _ h

theorem foldl_settled_some (evs : List ProcEvent) (st : InvokerState) (r : Except String String)
    (h : st.settled = some r) : (evs.foldl stepEvent st).settled = some r := by
  induction evs generalizing st with
  | nil => exact h
  | cons e evs ih => exact ih _ (stepEvent_settled_some st e r h)

theorem stepEvent_killSent_mono (st : InvokerState) (e : ProcEvent)
    (h : st.killSent = true) : (stepEvent st e).killSent = true := by
  cases e with
  | dataOut s => simpa [stepEvent] using h
  | dataErr s => simpa [stepEvent] using h
  | close code =>
    simp only [stepEvent]
    split <;> simpa [settle_killSent] using h
  | errored m => simpa [stepEvent, settle_killSent] using h
  | timerFire =>
    simp only [stepEvent]
    split
    · exact h
    · rw [settle_killSent, withKill_killSent]

theorem foldl_killSent_mono (evs : List ProcEvent) (st : InvokerState)
    (h : st.killSent = true) : (evs.foldl stepEvent st).killSent = true := by
  induction evs generalizing st with
  | nil => exact h
  | cons e evs ih => exact ih _ (stepEvent_killSent_mono st e h)

theorem stepEvent_timerCancelled_mono (st : InvokerState) (e : ProcEvent)
    (h : st.timerCancelled = true) : (stepEvent st e).timerCancelled = true := by
  cases e with
  | dataOut s => simpa [stepEvent] using h
  | dataErr s => simpa [stepEvent] using h
  | close code => simp [stepEvent]
  | errored m => simpa [stepEvent, settle_timerCancelled] using h
  | timerFire =>
    simp only [stepEvent]
    split
    · exact h
    · next hguard => exact absurd h hguard

theorem foldl_timerCancelled_mono (evs : List ProcEvent) (st : InvokerState)
    (h : st.timerCancelled = true) : (evs.foldl stepEvent st).timerCancelled = true := by
  induction evs generalizing st with
  | nil => exact h
  | cons e evs ih => exact ih _ (stepEvent_timerCancelled_mono st e h)

theorem settle_timerFire_inv (st : InvokerState) (h : pendingInv st) :
    (stepEvent st ProcEvent.timerFire).settled =
        some (Except.error "Codex CLI operation timed out") ∧
      (stepEvent st ProcEvent.timerFire).killSent = true ∧
      (stepEvent st ProcEvent.timerFire).timerCancelled = false := by
  obtain ⟨htc, hs⟩ := h
  rw [stepEvent_timerFire_armed st htc]
  refine ⟨?_, ?_, ?_⟩
  · rcases hs with h0 | ⟨h1, _⟩
    · exact settle_settled_none _ _ (by rw [withKill_settled]; exact h0)
    · exact settle_settled_some _ _ _ (by rw [withKill_settled]; exact h1)
  · rw [settle_killSent, withKill_killSent]
  · rw [settle_timerCancelled, withKill_timerCancelled]; exact htc

theorem pendingInv_step (st : InvokerState) (e : ProcEvent)
    (hok : e.isClose = false ∧ e.isSpawnErr = false) (h : pendingInv st) :
    pendingInv (stepEvent st e) := by
  cases e with
  | dataOut s => exact ⟨h.1, by simpa [stepEvent] using h.2⟩
  | dataErr s => exact ⟨h.1, by simpa [stepEvent] using h.2⟩
  | close code => simp [ProcEvent.isClose] at hok
  | errored m => simp [ProcEvent.isSpawnErr] at hok
  | timerFire =>
    obtain ⟨h1, h2, h3⟩ := settle_timerFire_inv st h
    exact ⟨h3, Or.inr ⟨h1, h2⟩⟩

theorem pendingInv_foldl (pre : List ProcEvent) (st : InvokerState)
    (hok : ∀ e ∈ pre, e.isClose = false ∧ e.isSpawnErr = false) (h : pendingInv st) :
    pendingInv (pre.foldl stepEvent st) := by
  induction pre generalizing st with
  | nil => exact h
  | cons e pre ih =>
    exact ih _ (fun x hx => hok x (List.mem_cons_of_mem e hx))
      (pendingInv_step st e (hok e (List.mem_cons_self e pre)) h)

/-- C5: over every delivery order of the handler events, if the
30-second timer fires before any `close` (and before any spawn-error)
event, the invoker sends SIGTERM and the call settles with the timeout
error — and stays settled that way no matter what events (including a
late exit) follow; and whenever a `close` event occurs, `clearTimeout`
has run by the end of the trace. -/
theorem c5_timeout_and_cancellation :
    (∀ (pre post : List ProcEvent),
      (∀ e ∈ pre, e.isClose = false ∧ e.isSpawnErr = false) →
      (runEvents (pre ++ ProcEvent.timerFire :: post)).killSent = true ∧
      (runEvents (pre ++ ProcEvent.timerFire :: post)).settled =
        some (Except.error "Codex CLI operation timed out")) ∧
    (∀ (pre : List ProcEvent) (code : Option Int) (post : List ProcEvent),
      (runEvents (pre ++ ProcEvent.close code :: post)).timerCancelled = true) := by
  constructor
  · intro pre post hok
    have hinv : pendingInv (pre.foldl stepEvent initState) :=
      pendingInv_foldl pre initState hok ⟨rfl, Or.inl rfl⟩
    obtain ⟨h1, h2, _⟩ := settle_timerFire_inv _ hinv
    have hrun : runEvents (pre ++ ProcEvent.timerFire :: post) =
        post.foldl stepEvent (stepEvent (pre.foldl stepEvent initState) ProcEvent.timerFire) := by
      simp [runEvents, List.foldl_append]
    rw [hrun]
    exact ⟨foldl_killSent_mono post _ h2, foldl_settled_some post _ _ h1⟩
  · intro pre code post
    have hrun : runEvents (pre ++ ProcEvent.close code :: post) =
        post.foldl stepEvent (stepEvent (pre.foldl stepEvent initState) (ProcEvent.close code)) := by
      simp [runEvents, List.foldl_append]
    rw [hrun]
    exact foldl_timerCancelled_mono post _ (by simp [stepEvent])

/-- C5 witness: a concrete trace where the timer fires after partial
output and the process exits afterwards, and a concrete trace that
closes before the timer. -/
theorem c5_witness :
    ((runEvents [ProcEvent.dataOut "partial", ProcEvent.timerFire, ProcEvent.close (some 0)]).killSent = true ∧
     (runEvents [ProcEvent.dataOut "partial", ProcEvent.timerFire, ProcEvent.close (some 0)]).settled =
       some (Except.error "Codex CLI operation timed out")) ∧
    (runEvents [ProcEvent.close (some 0), ProcEvent.timerFire]).timerCancelled = true :=
  ⟨c5_timeout_and_cancellation.1 [ProcEvent.dataOut "partial"] [ProcEvent.close (some 0)]
      (by decide),
   c5_timeout_and_cancellation.2 [] (some 0) [ProcEvent.timerFire]⟩

/-- C6: when the subprocess exits 0 and its stdout is exactly the
scenario-B JSON object with every field non-empty, the pipeline (for
any rule set and any request) returns exactly that object,
field-for-field. -/
theorem c6_valid_json_passthrough (rules : PromptRules) (req : CodexRequest) :
    runCodexCLI rules req
      (.success "\x7b\"improvedPrompt\":\"x\",\"rationale\":\"y\",\"risks\":[\"r1\"],\"tags\":[\"t1\"],\"metadata\":\x7b\"sections\":[\"s1\"],\"acceptanceCriteria\":[\"a1\"],\"checklist\":[\"c1\"]\x7d\x7d") =
    { improvedPrompt := "x", rationale := "y", risks := ["r1"], tags := ["t1"],
      metadata := { sections := ["s1"], acceptanceCriteria := ["a1"], checklist := ["c1"] } } := rfl

/-- C7: in the reconciler's fallback path the caller tags are appended
to the suggested tags and the combination is capped at 8; whenever the
combination exceeds 8 entries, both fallback constructors emit exactly
8 tags. -/
theorem c7_tag_cap (rules : PromptRules) (p out msg : String) (ctx : Option String)
    (callerTags : List String)
    (h : 8 < (suggestTags rules p ++ callerTags).length) :
    (createFallbackOutput rules p out ctx (some callerTags)).tags =
      (suggestTags rules p ++ callerTags).take 8 ∧
    (createFallbackOutput rules p out ctx (some callerTags)).tags.length = 8 ∧
    (createErrorFallbackOutput rules p msg ctx (some callerTags)).tags.length = 8 := by
  refine ⟨rfl, ?_, ?_⟩
  · simp only [createFallbackOutput, List.length_take, Option.getD_some]
    simp only [List.length_append] at h ⊢
    omega
  · simp only [createErrorFallbackOutput, List.length_take, List.length_cons, Option.getD_some]
    simp only [List.length_append] at h ⊢
    omega

/-- C7 witness: nine caller tags on a prompt with no suggested tags
exceed the cap, and exactly 8 tags come back. -/
theorem c7_witness :
    8 < (suggestTags defaultRules "x" ++ ["a", "b", "c", "d", "e", "f", "g", "h", "i"]).length ∧
    (createFallbackOutput defaultRules "x" "out" none
      (some ["a", "b", "c", "d", "e", "f", "g", "h", "i"])).tags.length = 8 :=
  ⟨by decide, (c7_tag_cap defaultRules "x" "out" "m" none
      ["a", "b", "c", "d", "e", "f", "g", "h", "i"] (by decide)).2.1⟩

/-- C8 counterexample: a pipeline result whose tags contain a
duplicate — the caller-supplied tags `["a", "a"]` are appended without
deduplication on the fallback path, so the result's tag sequence is not
set-like. -/
theorem c8_counterexample :
    (runCodexCLI defaultRules { prompt := "x", context := none, tags := some ["a", "a"], model := "gpt-5" }
      (.success "no json here")).tags = ["a", "a"] ∧
    ¬ List.Nodup (runCodexCLI defaultRules { prompt := "x", context := none, tags := some ["a", "a"], model := "gpt-5" }
      (.success "no json here")).tags := by
  decide

/-- C8 as amended: only the heuristically suggested tags are set-like —
`suggestTags` is duplicate-free and preserves the first-seen order of
the accumulated tag list (it is a sublist of it); pipeline results may
still carry duplicates contributed by caller- or subprocess-supplied
tags. -/
theorem c8_amended_suggestTags_dedup (rules : PromptRules) (p : String) :
    (suggestTags rules p).Nodup ∧ (suggestTags rules p).Sublist (suggestTagsRaw rules p) :=
  ⟨dedupFirstAux_nodup [] _, dedupFirstAux_sublist [] _⟩

/-- C9: any prompt containing both `script` and `postgres`
(case-insensitively) is classified as `software_development`, because
the development keyword group is tested before the data keyword
group. -/
theorem c9_development_before_data (p : String)
    (h1 : strIncludes (jsToLower p) "script" = true)
    (_h2 : strIncludes (jsToLower p) "postgres" = true) :
    detectTemplate p = "software_development" := by
  simp [detectTemplate, h1]

/-- C9 witness: the concrete prompt `"script postgres"`. -/
theorem c9_witness :
    strIncludes (jsToLower "script postgres") "script" = true ∧
    strIncludes (jsToLower "script postgres") "postgres" = true ∧
    detectTemplate "script postgres" = "software_development" :=
  ⟨by decide, by decide, c9_development_before_data "script postgres" (by decide) (by decide)⟩

/-- Looking a key up in a list none of whose entries carry that key
yields nothing. -/
theorem jlookup_extra_none (extra : List (String × Json)) (k : String)
    (h : ∀ kv ∈ extra, (kv.1 == k) = false) : jlookup extra k = none := by
  induction extra with
  | nil => rfl
  | cons kv rest ih =>
    obtain ⟨k1, v1⟩ := kv
    have hrest : jlookup rest k = none := ih (fun x hx => h x (List.mem_cons_of_mem _ hx))
    have hk : (k1 == k) = false := h (k1, v1) (List.mem_cons_self _ _)
    simp [jlookup, hrest, hk]

/-- Appending entries that do not carry the key leaves every lookup
unchanged. -/
theorem jlookup_append_fresh (fields extra : List (String × Json)) (k : String)
    (h : jlookup extra k = none) : jlookup (fields ++ extra) k = jlookup fields k := by
  induction fields with
  | nil => simpa using h
  | cons kv rest ih =>
    obtain ⟨k1, v1⟩ := kv
    have ih' : jlookup (rest.append extra) k = jlookup rest k := ih
    simp only [List.cons_append, jlookup, ih']

/-- A key that is not one of the five schema keys differs from each of
them. -/
theorem requiredTopKey_eq_false (k : String) (h : requiredTopKey k = false) :
    (k == "improvedPrompt") = false ∧ (k == "rationale") = false ∧ (k == "risks") = false ∧
    (k == "tags") = false ∧ (k == "metadata") = false := by
  simp only [requiredTopKey, Bool.or_eq_false_iff] at h
  exact ⟨h.1.1.1.1, h.1.1.1.2, h.1.1.2, h.1.2, h.2⟩

/-- C10: strict validation strips unknown keys instead of failing.
Universally over the JSON value space: (1) every JSON object whose five
required lookups succeed with the correct element types — whatever
other keys it or its metadata object carry — validates to exactly those
five fields; (2) adjoining arbitrary entries with non-schema keys to
any valid object leaves validation succeeding with the identical
stripped result; and (3) through the full pipeline, for every rule set
and request, a concrete stdout with unknown `extra` and `metadata.more`
keys comes back as the five declared fields without the fallback path
being taken. -/
theorem c10_unknown_keys_stripped :
    (∀ (fields mf : List (String × Json)) (ip ra : String) (ri ta secs ac cl : List String),
      (jlookup fields "improvedPrompt").bind asStr = some ip →
      (jlookup fields "rationale").bind asStr = some ra →
      (jlookup fields "risks").bind asStrList = some ri →
      (jlookup fields "tags").bind asStrList = some ta →
      jlookup fields "metadata" = some (Json.obj mf) →
      (jlookup mf "sections").bind asStrList = some secs →
      (jlookup mf "acceptanceCriteria").bind asStrList = some ac →
      (jlookup mf "checklist").bind asStrList = some cl →
      codexOutputValidate (Json.obj fields) =
        some { improvedPrompt := ip, rationale := ra, risks := ri, tags := ta,
               metadata := { sections := secs, acceptanceCriteria := ac, checklist := cl } }) ∧
    (∀ (fields extra : List (String × Json)) (out : RefinedPromptOutput),
      codexOutputValidate (Json.obj fields) = some out →
      (∀ kv ∈ extra, requiredTopKey kv.1 = false) →
      codexOutputValidate (Json.obj (fields ++ extra)) = some out) ∧
    (∀ (rules : PromptRules) (req : CodexRequest),
      runCodexCLI rules req
        (.success "\x7b\"improvedPrompt\":\"x\",\"rationale\":\"y\",\"risks\":[\"r1\"],\"tags\":[\"t1\"],\"extra\":123,\"metadata\":\x7b\"sections\":[\"s1\"],\"acceptanceCriteria\":[\"a1\"],\"checklist\":[\"c1\"],\"more\":true\x7d\x7d") =
      { improvedPrompt := "x", rationale := "y", risks := ["r1"], tags := ["t1"],
        metadata := { sections := ["s1"], acceptanceCriteria := ["a1"], checklist := ["c1"] } }) := by
  refine ⟨?_, ?_, fun rules req => rfl⟩
  · intro fields mf ip ra ri ta secs ac cl h1 h2 h3 h4 h5 h6 h7 h8
    simp only [codexOutputValidate, h1, h2, h3, h4, h5, h6, h7, h8]
  · intro fields extra out hvalid hfresh
    have hnone : ∀ k : String, (∀ kv ∈ extra, (kv.1 == k) = false) →
        jlookup (fields ++ extra) k = jlookup fields k :=
      fun k hk => jlookup_append_fresh fields extra k (jlookup_extra_none extra k hk)
    have e1 := hnone "improvedPrompt"
      (fun kv hkv => (requiredTopKey_eq_false kv.1 (hfresh kv hkv)).1)
    have e2 := hnone "rationale"
      (fun kv hkv => (requiredTopKey_eq_false kv.1 (hfresh kv hkv)).2.1)
    have e3 := hnone "risks"
      (fun kv hkv => (requiredTopKey_eq_false kv.1 (hfresh kv hkv)).2.2.1)
    have e4 := hnone "tags"
      (fun kv hkv => (requiredTopKey_eq_false kv.1 (hfresh kv hkv)).2.2.2.1)
    have e5 := hnone "metadata"
      (fun kv hkv => (requiredTopKey_eq_false kv.1 (hfresh kv hkv)).2.2.2.2)
    have key : codexOutputValidate (Json.obj (fields ++ extra)) =
        codexOutputValidate (Json.obj fields) := by
      simp only [codexOutputValidate, e1, e2, e3, e4, e5]
    rw [key]
    exact hvalid

/-- C10 witness: a concrete object with unknown `extra` (top level) and
`more` (inside metadata) keys, built by adjoining the fresh key to the
valid base object through the theorem's second part. -/
theorem c10_witness :
    codexOutputValidate (Json.obj
      ([("improvedPrompt", Json.str "x"), ("rationale", Json.str "y"),
        ("risks", Json.arr [Json.str "r1"]), ("tags", Json.arr [Json.str "t1"]),
        ("metadata", Json.obj
          [("sections", Json.arr [Json.str "s1"]),
           ("acceptanceCriteria", Json.arr [Json.str "a1"]),
           ("checklist", Json.arr [Json.str "c1"]),
           ("more", Json.bool true)])] ++ [("extra", Json.num 123)])) =
      some { improvedPrompt := "x", rationale := "y", risks := ["r1"], tags := ["t1"],
             metadata := { sections := ["s1"], acceptanceCriteria := ["a1"], checklist := ["c1"] } } :=
  c10_unknown_keys_stripped.2.1
    [("improvedPrompt", Json.str "x"), ("rationale", Json.str "y"),
     ("risks", Json.arr [Json.str "r1"]), ("tags", Json.arr [Json.str "t1"]),
     ("metadata", Json.obj
       [("sections", Json.arr [Json.str "s1"]),
        ("acceptanceCriteria", Json.arr [Json.str "a1"]),
        ("checklist", Json.arr [Json.str "c1"]),
        ("more", Json.bool true)])]
    [("extra", Json.num 123)] _ rfl (by decide)

